import Mathlib

/-!
Shallow embedding of the mock-blockchain ledger and the identity-verification
contract of this repository (src/backend/blockchain/contracts/MockBlockchain.py,
src/backend/blockchain/contracts/IdentityVerification.py, and
src/backend/blockchain/storage.py), together with proofs settling the frozen
claims about them.

Modelling conventions:
* Python dicts are embedded as association lists (`List (κ × α)`) with
  insert-or-update semantics (`ainsert`) that preserve insertion order,
  matching Python dict behaviour.
* Ambient effects are made explicit: `time.time()` becomes a `now : Int`
  argument, the randomized transaction hash produced by
  `Transaction._generate_hash` (sha256 over inputs plus a uuid4 nonce)
  becomes a `txh : String` argument.
* `hashlib.sha256(...).hexdigest()` and `len(str(data))` are supplied by an
  environment record `Env` as uninterpreted functions: no claim depends on
  the concrete value of a digest or of the mock gas formula, only on how the
  code threads them through the state.
* Python exceptions (`ValueError` with the spec's error taxonomy) become an
  `Err` value; since a raise can leave earlier mutations in place, stateful
  operations return `(Except Err α) × State`, the second component being the
  state after the call whether or not it raised.
-/

/-- Python values appearing in transaction data, event args, contract storage
and filters.  The repository only stores ints, strings, booleans and lists of
strings in these positions. -/
inductive Val where
  | vInt (i : Int)
  | vStr (s : String)
  | vBool (b : Bool)
  | vListStr (l : List String)
  deriving DecidableEq, Repr

/-- Argument / data dictionaries (Python `Dict[str, Any]`). -/
abbrev ArgMap := List (String × Val)

/-- Dictionary lookup (`d.get(k)` / `k in d`). -/
def alookup {κ α : Type} [DecidableEq κ] : List (κ × α) → κ → Option α
  | [], _ => none
  | (k, v) :: rest, key => if k = key then some v else alookup rest key

/-- Dictionary insert-or-update (`d[k] = v`): replaces the value of an existing
key in place, appends a new key at the end — Python dict ordering. -/
def ainsert {κ α : Type} [DecidableEq κ] : List (κ × α) → κ → α → List (κ × α)
  | [], key, val => [(key, val)]
  | (k, v) :: rest, key, val =>
      if k = key then (k, val) :: rest else (k, v) :: ainsert rest key val

/-- Membership test (`k in d`). -/
def acontains {κ α : Type} [DecidableEq κ] (m : List (κ × α)) (key : κ) : Bool :=
  (alookup m key).isSome

/-- Environment of uninterpreted ambient functions. -/
structure Env where
  /-- `hashlib.sha256(s.encode()).hexdigest()`. -/
  sha256hex : String → String
  /-- `len(str(data))`, used only in the mock gas formula. -/
  dataSize : ArgMap → Nat

/-- The genesis previous-hash sentinel `"0" * 64`. -/
def zeros64 : String := String.mk (List.replicate 64 '0')

/-- Receipt produced by `Transaction.execute` (MockBlockchain.py lines 73-87).
`from`/`to` are Lean keywords, hence `from_address`/`to_address`. -/
structure Receipt where
  transaction_hash : String
  from_address : String
  to_address : Option String
  block_number : Option Nat
  timestamp : Int
  status : Nat
  gas_used : Nat
  function_name : String
  deriving DecidableEq, Repr

/-- A transaction (MockBlockchain.py `Transaction`).  `hash` is the value the
source draws from sha256 over the inputs plus a uuid4 nonce; it is passed in
explicitly. -/
structure Transaction where
  from_address : String
  to_address : Option String
  data : ArgMap
  function_name : String
  timestamp : Int
  hash : String
  receipt : Option Receipt
  deriving DecidableEq, Repr

/-- `Transaction.__init__` followed by `Transaction.execute`: every transaction
in the repository is executed immediately after creation, so the receipt is
built here (status 1, mock gas `21000 + len(str(data)) * 100`, block number
unset until mined). -/
def mkTransaction (env : Env) (now : Int) (txh : String) (from_address : String)
    (to_address : Option String) (data : ArgMap) (function_name : String) : Transaction :=
  { from_address := from_address
    to_address := to_address
    data := data
    function_name := function_name
    timestamp := now
    hash := txh
    receipt := some
      { transaction_hash := txh
        from_address := from_address
        to_address := to_address
        block_number := none
        timestamp := now
        status := 1
        gas_used := 21000 + env.dataSize data * 100
        function_name := function_name } }

/-- A block (MockBlockchain.py `Block`). -/
structure Block where
  block_number : Nat
  timestamp : Int
  transactions : List Transaction
  previous_hash : String
  hash : String
  deriving DecidableEq, Repr

/-- `Block._calculate_hash`: sha256 of the concatenation of block number,
timestamp, previous hash and transaction count. -/
def Block.calcHash (env : Env) (block_number : Nat) (timestamp : Int)
    (previous_hash : String) (txCount : Nat) : String :=
  env.sha256hex (toString block_number ++ toString timestamp ++ previous_hash ++ toString txCount)

/-- `Block.__init__(block_number, previous_hash)` at time `now`. -/
def Block.init (env : Env) (block_number : Nat) (now : Int) (previous_hash : String) : Block :=
  { block_number := block_number
    timestamp := now
    transactions := []
    previous_hash := previous_hash
    hash := Block.calcHash env block_number now previous_hash 0 }

/-- `Block.add_transaction`: append and recompute the hash (which only depends
on the transaction count). -/
def Block.addTransaction (env : Env) (b : Block) (tx : Transaction) : Block :=
  let txs := b.transactions ++ [tx]
  { b with
    transactions := txs
    hash := Block.calcHash env b.block_number b.timestamp b.previous_hash txs.length }

/-- An event (MockBlockchain.py `Event`). -/
structure Event where
  name : String
  args : ArgMap
  transaction_hash : String
  block_number : Nat
  log_index : Nat
  address : String
  timestamp : Int
  deriving DecidableEq, Repr

/-- A deployed mock contract (MockBlockchain.py `MockContract`).  The static
`abi` metadata is not modelled: nothing in the repository reads it after
construction. -/
structure MockContract where
  address : String
  name : String
  storage : List (String × Val)
  events : List Event
  deriving DecidableEq, Repr

/-- `json.dumps` of a value, as used for storage keys.  String escaping of
special characters is not modelled; keys and arguments in this repository are
plain identifiers. -/
def Val.dumps : Val → String
  | .vInt i => toString i
  | .vStr s => "\"" ++ s ++ "\""
  | .vBool b => if b then "true" else "false"
  | .vListStr l => "[" ++ String.intercalate ", " (l.map (fun s => "\"" ++ s ++ "\"")) ++ "]"

/-- Insertion sort of the argument dictionary by key — `sort_keys=True`. -/
def insertSorted (p : String × Val) : List (String × Val) → List (String × Val)
  | [] => [p]
  | q :: rest => if p.1 ≤ q.1 then p :: q :: rest else q :: insertSorted p rest

/-- Keys sorted ascending, as `json.dumps(args, sort_keys=True)` does. -/
def sortByKey (args : ArgMap) : ArgMap :=
  args.foldr insertSorted []

/-- `json.dumps(args, sort_keys=True)`. -/
def dumpsSorted (args : ArgMap) : String :=
  "\x7b" ++
    String.intercalate ", "
      ((sortByKey args).map (fun p => "\"" ++ p.1 ++ "\": " ++ p.2.dumps)) ++
  "\x7d"

/-- The contract-storage key `f"{function_name}:{json.dumps(args, sort_keys=True)}"`. -/
def canonKey (function_name : String) (args : ArgMap) : String :=
  function_name ++ ":" ++ dumpsSorted args

/-- Extract a Python int.  (`args.get("tokenId", 0) % 10` would raise a
`TypeError` on a non-int value; that case is outside the modelled domain.) -/
def Val.asInt : Val → Option Int
  | .vInt i => some i
  | _ => none

/-- The canned defaults of `MockContract.call` for recognized function-name
patterns (MockBlockchain.py lines 163-175), applied when the storage key is
absent. -/
def defaultResult (function_name : String) (args : ArgMap) : Option Val :=
  if function_name = "balanceOf" then some (.vInt 100)
  else if function_name = "ownerOf" then
    some (.vInt ((((alookup args "tokenId").bind Val.asInt).getD 0) % 10))
  else if function_name = "totalSupply" then some (.vInt 1000)
  else if function_name.startsWith "get" then some (.vStr "MockValue")
  else none

/-- `MockContract.call`: return the stored value for the `(function, args)`
key if present, else the canned default.  Read-only: by its type it produces
no new contract state. -/
def MockContract.call (c : MockContract) (function_name : String) (args : ArgMap) : Option Val :=
  match alookup c.storage (canonKey function_name args) with
  | some v => some v
  | none => defaultResult function_name args

/-- `MockContract.transact`: create and execute a transaction addressed to the
contract, and mark the `(function, args)` signature as executed (`True`) in
contract storage. -/
def MockContract.transact (env : Env) (now : Int) (txh : String) (c : MockContract)
    (function_name : String) (args : ArgMap) (from_address : String) :
    Transaction × MockContract :=
  let tx := mkTransaction env now txh from_address (some c.address) args function_name
  (tx, { c with storage := ainsert c.storage (canonKey function_name args) (.vBool true) })

/-- `MockContract.emit_event`: build an event with `log_index` equal to the
current event count and append it to the contract's event list. -/
def MockContract.emitEvent (c : MockContract) (now : Int) (event_name : String)
    (args : ArgMap) (transaction_hash : String) (block_number : Nat) :
    Event × MockContract :=
  let ev : Event :=
    { name := event_name
      args := args
      transaction_hash := transaction_hash
      block_number := block_number
      log_index := c.events.length
      address := c.address
      timestamp := now }
  (ev, { c with events := c.events ++ [ev] })

/-- `MockContract.get_past_events`: keep the contract's events whose name
matches, whose block number is in the inclusive range (`to_block = None`
imposes no upper bound), and which satisfy every filter entry — a filter key
absent from `args` rejects the event.  A `None` filter dict is the empty
list (Python's `if filters:` skips the check for both `None` and `{}`, which
agrees with the empty conjunction). -/
def MockContract.getPastEvents (c : MockContract) (event_name : String)
    (from_block : Nat) (to_block : Option Nat) (filters : List (String × Val)) :
    List Event :=
  c.events.filter (fun e =>
    e.name = event_name &&
    from_block ≤ e.block_number &&
    (match to_block with
     | none => true
     | some tb => e.block_number ≤ tb) &&
    filters.all (fun kv =>
      match alookup e.args kv.1 with
      | some w => w = kv.2
      | none => false))

/-- The spec's error taxonomy for the `ValueError`s raised by the ledger and
the identity contract. -/
inductive Err where
  | duplicateIdentity
  | unauthorized
  | notFound
  | insufficientBalance
  deriving DecidableEq, Repr

/-- Ledger state (MockBlockchain.py `MockBlockchain`). -/
structure BCState where
  chain : List Block
  pending_transactions : List Transaction
  contracts : List (String × MockContract)
  accounts : List (String × Int)
  nonces : List (String × Nat)
  events : List Event
  deriving DecidableEq, Repr

/-- The default account address `f"0x{i:040x}"`; for `i < 10` the 40-digit hex
form is 39 zeros followed by the decimal digit of `i`. -/
def defaultAddress (i : Nat) : String :=
  "0x" ++ String.mk (List.replicate 39 '0') ++ toString i

/-- `MockBlockchain.__init__` at genesis time `t0` (with no persisted snapshot
to load): genesis block with the zero previous hash, ten funded default
accounts, empty pending queue, no contracts, no events. -/
def initBC (env : Env) (t0 : Int) : BCState :=
  { chain := [Block.init env 0 t0 zeros64]
    pending_transactions := []
    contracts := []
    accounts := (List.range 10).map (fun i => (defaultAddress i, (100 * 10 ^ 18 : Int)))
    nonces := (List.range 10).map (fun i => (defaultAddress i, 0))
    events := [] }

/-- `self.accounts.get(address, 0)`. -/
def BCState.balanceOf (s : BCState) (address : String) : Int :=
  (alookup s.accounts address).getD 0

/-- `self.nonces.get(address, 0)`. -/
def BCState.nonceOf (s : BCState) (address : String) : Nat :=
  (alookup s.nonces address).getD 0

/-- `MockBlockchain.create_transaction`: raise `InsufficientBalance` when the
sender's balance (0 for an unknown sender) is below the 21000 minimum-gas
threshold — before any mutation; otherwise build and execute the transaction,
bump the sender's nonce, and append the transaction to the pending queue.  No
block is mined. -/
def createTransaction (env : Env) (now : Int) (txh : String) (from_address to_address : String)
    (function_name : String) (data : ArgMap) (s : BCState) :
    Except Err (Transaction × BCState) :=
  if s.balanceOf from_address < 21000 then
    .error .insufficientBalance
  else
    let tx := mkTransaction env now txh from_address (some to_address) data function_name
    .ok (tx,
      { s with
        nonces := ainsert s.nonces from_address (s.nonceOf from_address + 1)
        pending_transactions := s.pending_transactions ++ [tx] })

/-- The accumulator of the mining loop: the block under construction plus the
contract map and global event list as they grow. -/
structure MineAcc where
  block : Block
  contracts : List (String × MockContract)
  events : List Event

/-- One iteration of the `for tx in self.pending_transactions` loop in
`MockBlockchain.mine_block`: back-fill the receipt's block number (the Python
receipt dict is shared between the transaction and the copy just attached to
the block, so updating before attaching is equivalent), attach the transaction
to the block, and — when the transaction is addressed to a known contract —
have that contract emit the synthetic `"<functionName>Event"` with the
transaction's data as args, also recording it in the global event list. -/
def mineStep (env : Env) (now : Int) (acc : MineAcc) (tx : Transaction) : MineAcc :=
  let tx := { tx with
    receipt := tx.receipt.map (fun r => { r with block_number := some acc.block.block_number }) }
  let block := Block.addTransaction env acc.block tx
  match tx.to_address with
  | some a =>
      match alookup acc.contracts a with
      | some c =>
          let (ev, c') := c.emitEvent now (tx.function_name ++ "Event") tx.data tx.hash
            acc.block.block_number
          { block := block
            contracts := ainsert acc.contracts a c'
            events := acc.events ++ [ev] }
      | none => { acc with block := block }
  | none => { acc with block := block }

/-- `MockBlockchain.mine_block`: create the next block (number = last + 1,
previous hash = the last block's hash), process every pending transaction,
append the block to the chain and clear the pending queue.  (`self.chain[-1]`
on an empty chain would raise in Python; the chain is never empty, the `getD`
default is unreachable.) -/
def mineBlock (env : Env) (now : Int) (s : BCState) : Block × BCState :=
  let last := s.chain.getLast?.getD (Block.init env 0 now zeros64)
  let nb := Block.init env (last.block_number + 1) now last.hash
  let acc := s.pending_transactions.foldl (mineStep env now)
    { block := nb, contracts := s.contracts, events := s.events }
  (acc.block,
    { s with
      chain := s.chain ++ [acc.block]
      pending_transactions := []
      contracts := acc.contracts
      events := acc.events })

/-- The last block's number, `self.chain[-1].block_number`. -/
def BCState.lastBlockNumber (s : BCState) : Nat :=
  (s.chain.getLast?.map Block.block_number).getD 0

/-- `MockBlockchain.get_logs`: filter the global event list by inclusive block
range (`to_block` defaults to the chain head's number) and, when an address is
supplied, by emitting address.  Python's `if address and ...` treats the empty
string as no filter; the `topics` parameter is accepted but unused (a `TODO`
in the source). -/
def getLogs (s : BCState) (from_block : Nat) (to_block : Option Nat)
    (address : Option String) (topics : Option (List String) := none) : List Event :=
  let _ := topics
  let toB := to_block.getD s.lastBlockNumber
  s.events.filter (fun e =>
    from_block ≤ e.block_number &&
    e.block_number ≤ toB &&
    (match address with
     | none => true
     | some a => if a = "" then true else e.address = a))

/-- An operation on the bare ledger, carrying its ambient inputs (call time,
generated transaction hash). -/
inductive LedgerOp where
  | mine (now : Int)
  | createTx (now : Int) (txh from_address to_address function_name : String) (data : ArgMap)

/-- Apply a ledger operation; a raised `InsufficientBalance` leaves the state
unchanged (the source raises before any mutation). -/
def applyLedgerOp (env : Env) (s : BCState) : LedgerOp → BCState
  | .mine now => (mineBlock env now s).2
  | .createTx now txh f t fn d =>
      match createTransaction env now txh f t fn d s with
      | .ok (_, s') => s'
      | .error _ => s

/-- Run a sequence of ledger operations. -/
def runLedger (env : Env) (s : BCState) (ops : List LedgerOp) : BCState :=
  ops.foldl (applyLedgerOp env) s

/-- Number of `mineBlock` calls in an operation sequence. -/
def mineCount (ops : List LedgerOp) : Nat :=
  ops.countP (fun op => match op with | .mine _ => true | _ => false)

/-- An identity record (IdentityVerification.py `create_identity`).  The
`verification_types` and `third_party_access` sub-dicts are created empty and
never written afterwards; verification statuses live in the separate
`verification_records` map. -/
structure IdentityRecord where
  created_at : Int
  verification_types : ArgMap
  third_party_access : ArgMap
  deriving DecidableEq, Repr

/-- An access grant (IdentityVerification.py `grant_access` /
`revoke_access`).  The `revoked_at` key is absent until a revoke. -/
structure AccessGrant where
  expiry_timestamp : Int
  data_types : List String
  granted_at : Int
  revoked : Bool
  revoked_at : Option Int
  deriving DecidableEq, Repr

/-- A ZKP verification record (IdentityVerification.py
`record_zkp_verification`). -/
structure ZkpRecord where
  user : String
  verifier : String
  proof_hash : String
  data_type : String
  timestamp : Int
  deriving DecidableEq, Repr

/-- The four state maps of `IdentityVerificationContract`.  The inner keys of
`verification_records` are the Python values used as dict keys — ints in every
call of the contract's API (`verification_type: int`); they are kept as `Val`
because a JSON save/load round trip turns them into strings. -/
structure ContractMaps where
  identity_records : List (String × IdentityRecord)
  verification_records : List (String × List (Val × Int))
  access_grants : List (String × List (String × AccessGrant))
  zkp_verifications : List ZkpRecord
  deriving DecidableEq, Repr

/-- Full system state: the ledger plus the identity contract's maps and the
address under which its `MockContract` is registered.  The Python
`self.contract` reference and `mock_blockchain.contracts[address]` alias the
same object; the model routes every access through the contracts map. -/
structure SysState where
  bc : BCState
  contractAddress : String
  maps : ContractMaps
  deriving DecidableEq, Repr

/-- System state at construction time, on the path that attaches the wrapper
to an already-registered `MockContract` (fresh ledger, fresh empty contract,
empty contract maps, nothing persisted). -/
def initSys (env : Env) (t0 : Int) (addr : String) : SysState :=
  { bc := { initBC env t0 with
      contracts := [(addr, { address := addr, name := "IdentityVerification",
                             storage := [], events := [] })] }
    contractAddress := addr
    maps := { identity_records := [], verification_records := [],
              access_grants := [], zkp_verifications := [] } }

/-- `IdentityVerificationContract._emit_event`: emit a domain event on the
identity contract itself, stamped with the latest block's number.  The event
goes only into that contract's event list — not into the ledger's global
`events` list that `get_logs` reads. -/
def emitDomainEvent (now : Int) (event_name : String) (args : ArgMap)
    (transaction_hash : String) (s : SysState) : SysState :=
  match alookup s.bc.contracts s.contractAddress with
  | some c =>
      let (_, c') := c.emitEvent now event_name args transaction_hash s.bc.lastBlockNumber
      { s with bc := { s.bc with contracts := ainsert s.bc.contracts s.contractAddress c' } }
  | none => s

/-- `IdentityVerificationContract.create_identity`: raise `DuplicateIdentity`
if the owner already has an identity; otherwise record the identity, create a
ledger transaction, mine a block, and emit `IdentityCreated` on the contract.
A raise out of `createTransaction` leaves the already-inserted identity record
in place, exactly as the Python exception does. -/
def createIdentity (env : Env) (now : Int) (txh : String) (owner_address from_address : String)
    (s : SysState) : Except Err Unit × SysState :=
  if acontains s.maps.identity_records owner_address then
    (.error .duplicateIdentity, s)
  else
    let s := { s with maps := { s.maps with
      identity_records := ainsert s.maps.identity_records owner_address
        { created_at := now, verification_types := [], third_party_access := [] } } }
    match createTransaction env now txh from_address s.contractAddress "createIdentity"
        [("owner", .vStr owner_address)] s.bc with
    | .error e => (.error e, s)
    | .ok (tx, bc) =>
        let s := { s with bc := (mineBlock env now bc).2 }
        let s := emitDomainEvent now "IdentityCreated" [("owner", .vStr owner_address)] tx.hash s
        (.ok (), s)

/-- `IdentityVerificationContract.update_verification`: create the identity if
missing (that inner call mines its own block, with its own generated
transaction hash `txhC`), overwrite `verification_records[owner][type]`,
create a transaction, mine, and emit `VerificationUpdated`. -/
def updateVerification (env : Env) (now : Int) (txhC txh : String) (owner_address : String)
    (verification_type status : Int) (from_address : String) (s : SysState) :
    Except Err Unit × SysState :=
  let step1 :=
    if acontains s.maps.identity_records owner_address then (.ok (), s)
    else createIdentity env now txhC owner_address from_address s
  match step1 with
  | (.error e, s) => (.error e, s)
  | (.ok _, s) =>
      let inner := (alookup s.maps.verification_records owner_address).getD []
      let s := { s with maps := { s.maps with
        verification_records := ainsert s.maps.verification_records owner_address
          (ainsert inner (.vInt verification_type) status) } }
      let args : ArgMap := [("owner", .vStr owner_address),
                            ("verificationType", .vInt verification_type),
                            ("status", .vInt status)]
      match createTransaction env now txh from_address s.contractAddress
          "updateVerification" args s.bc with
      | .error e => (.error e, s)
      | .ok (tx, bc) =>
          let s := { s with bc := (mineBlock env now bc).2 }
          let s := emitDomainEvent now "VerificationUpdated" args tx.hash s
          (.ok (), s)

/-- `IdentityVerificationContract.get_verification_status`: `0` (Pending) when
the owner or the verification type is absent. -/
def getVerificationStatus (s : SysState) (owner_address : String)
    (verification_type : Int) : Int :=
  match alookup s.maps.verification_records owner_address with
  | none => 0
  | some inner =>
      match alookup inner (.vInt verification_type) with
      | none => 0
      | some st => st

/-- `IdentityVerificationContract.grant_access`: `Unauthorized` unless the
sender is the owner; create the identity if missing (hash `txhC`); overwrite
the grant for the pair with a fresh unrevoked record; transaction, mine, emit
`AccessGranted`. -/
def grantAccess (env : Env) (now : Int) (txhC txh : String)
    (owner_address third_party_address : String) (expiry_timestamp : Int)
    (data_types : List String) (from_address : String) (s : SysState) :
    Except Err Unit × SysState :=
  if from_address ≠ owner_address then
    (.error .unauthorized, s)
  else
    let step1 :=
      if acontains s.maps.identity_records owner_address then (.ok (), s)
      else createIdentity env now txhC owner_address from_address s
    match step1 with
    | (.error e, s) => (.error e, s)
    | (.ok _, s) =>
        let inner := (alookup s.maps.access_grants owner_address).getD []
        let s := { s with maps := { s.maps with
          access_grants := ainsert s.maps.access_grants owner_address
            (ainsert inner third_party_address
              { expiry_timestamp := expiry_timestamp
                data_types := data_types
                granted_at := now
                revoked := false
                revoked_at := none }) } }
        match createTransaction env now txh from_address s.contractAddress "grantAccess"
            [("thirdParty", .vStr third_party_address),
             ("expiryTimestamp", .vInt expiry_timestamp),
             ("dataTypes", .vListStr data_types)] s.bc with
        | .error e => (.error e, s)
        | .ok (tx, bc) =>
            let s := { s with bc := (mineBlock env now bc).2 }
            let s := emitDomainEvent now "AccessGranted"
              [("user", .vStr owner_address),
               ("thirdParty", .vStr third_party_address),
               ("expiryTimestamp", .vInt expiry_timestamp)] tx.hash s
            (.ok (), s)

/-- `IdentityVerificationContract.revoke_access`: `Unauthorized` unless the
sender is the owner, `NotFound` when no grant exists for the pair; otherwise
flip `revoked`, set `revoked_at`, transaction, mine, emit `AccessRevoked`. -/
def revokeAccess (env : Env) (now : Int) (txh : String)
    (owner_address third_party_address from_address : String) (s : SysState) :
    Except Err Unit × SysState :=
  if from_address ≠ owner_address then
    (.error .unauthorized, s)
  else
    let inner := (alookup s.maps.access_grants owner_address).getD []
    match alookup inner third_party_address with
    | none => (.error .notFound, s)
    | some g =>
        let s := { s with maps := { s.maps with
          access_grants := ainsert s.maps.access_grants owner_address
            (ainsert inner third_party_address
              { g with revoked := true, revoked_at := some now }) } }
        match createTransaction env now txh from_address s.contractAddress "revokeAccess"
            [("thirdParty", .vStr third_party_address)] s.bc with
        | .error e => (.error e, s)
        | .ok (tx, bc) =>
            let s := { s with bc := (mineBlock env now bc).2 }
            let s := emitDomainEvent now "AccessRevoked"
              [("user", .vStr owner_address),
               ("thirdParty", .vStr third_party_address)] tx.hash s
            (.ok (), s)

/-- `IdentityVerificationContract.check_access` over the grants map: false if
no grant for the pair, false if revoked, false if
`expiry_timestamp < int(time.time())`, true otherwise.  A pure read: by its
type it touches no state, creates no transaction and emits no event. -/
def checkAccessMap (grants : List (String × List (String × AccessGrant)))
    (third_party_address owner_address : String) (now : Int) : Bool :=
  match alookup grants owner_address with
  | none => false
  | some inner =>
      match alookup inner third_party_address with
      | none => false
      | some g =>
          if g.revoked then false
          else if g.expiry_timestamp < now then false
          else true

/-- `check_access` on the full system state. -/
def SysState.checkAccess (s : SysState) (third_party_address owner_address : String)
    (now : Int) : Bool :=
  checkAccessMap s.maps.access_grants third_party_address owner_address now

/-- `IdentityVerificationContract.record_zkp_verification`: `Unauthorized`
when the verifier (the sender) has no live access to the owner's identity;
otherwise append the audit record, transaction, mine, emit `ZKProofVerified`. -/
def recordZkpVerification (env : Env) (now : Int) (txh : String)
    (owner_address proof_hash data_type from_address : String) (s : SysState) :
    Except Err Unit × SysState :=
  if ¬ s.checkAccess from_address owner_address now then
    (.error .unauthorized, s)
  else
    let s := { s with maps := { s.maps with
      zkp_verifications := s.maps.zkp_verifications ++
        [{ user := owner_address, verifier := from_address, proof_hash := proof_hash,
           data_type := data_type, timestamp := now }] } }
    match createTransaction env now txh from_address s.contractAddress
        "recordZKProofVerification"
        [("user", .vStr owner_address), ("proofHash", .vStr proof_hash),
         ("dataType", .vStr data_type)] s.bc with
    | .error e => (.error e, s)
    | .ok (tx, bc) =>
        let s := { s with bc := (mineBlock env now bc).2 }
        let s := emitDomainEvent now "ZKProofVerified"
          [("user", .vStr owner_address), ("verifier", .vStr from_address),
           ("dataType", .vStr data_type)] tx.hash s
        (.ok (), s)

/-- A full-system operation, carrying its ambient inputs.  `txhC` is the
transaction hash consumed by an implicit `create_identity` when the owner has
no identity yet. -/
inductive SysOp where
  | opCreateIdentity (now : Int) (txh owner from_address : String)
  | opUpdateVerification (now : Int) (txhC txh owner : String) (vtype status : Int)
      (from_address : String)
  | opGrantAccess (now : Int) (txhC txh owner tp : String) (expiry : Int)
      (data_types : List String) (from_address : String)
  | opRevokeAccess (now : Int) (txh owner tp from_address : String)
  | opRecordZkp (now : Int) (txh owner proof_hash data_type from_address : String)
  | opMine (now : Int)
  | opCreateTx (now : Int) (txh from_address to_address function_name : String) (data : ArgMap)

/-- Apply a system operation, keeping the post-call state whether or not the
call raised. -/
def applySysOp (env : Env) (s : SysState) : SysOp → SysState
  | .opCreateIdentity now txh owner frm => (createIdentity env now txh owner frm s).2
  | .opUpdateVerification now txhC txh owner vt st frm =>
      (updateVerification env now txhC txh owner vt st frm s).2
  | .opGrantAccess now txhC txh owner tp expiry dts frm =>
      (grantAccess env now txhC txh owner tp expiry dts frm s).2
  | .opRevokeAccess now txh owner tp frm => (revokeAccess env now txh owner tp frm s).2
  | .opRecordZkp now txh owner ph dt frm => (recordZkpVerification env now txh owner ph dt frm s).2
  | .opMine now => { s with bc := (mineBlock env now s.bc).2 }
  | .opCreateTx now txh frm toAddr fn data =>
      match createTransaction env now txh frm toAddr fn data s.bc with
      | .ok (_, bc) => { s with bc := bc }
      | .error _ => s

/-- Run a sequence of system operations. -/
def runSys (env : Env) (s : SysState) (ops : List SysOp) : SysState :=
  ops.foldl (applySysOp env) s

/-- The JSON snapshot written by `BlockchainStorage.save_blockchain_state`
from `MockBlockchain.to_dict`, restricted to the parts `_load_state` reads
back: the per-block fields, the accounts map and the nonces map.  The
serialized `pending_transactions` and the address/name contract metadata are
written but never restored, and the `metadata` stamp is unused. -/
structure StoredBlockchain where
  blocks : List Block
  accounts : List (String × Int)
  nonces : List (String × Nat)
  deriving DecidableEq, Repr

/-- `MockBlockchain.save_state` (`to_dict` + `save_blockchain_state`): every
field serialized here is a string-keyed map, an int, a string or a list of
those, which `json.dump`/`json.load` preserve exactly. -/
def saveBlockchainState (s : BCState) : StoredBlockchain :=
  { blocks := s.chain, accounts := s.accounts, nonces := s.nonces }

/-- `MockBlockchain._load_state` on a fresh instance, given a stored snapshot:
rebuild each block from its serialized fields (`Block(number, previous_hash)`
followed by overwriting `timestamp`, `hash` and `transactions`), replace the
accounts and nonces maps, and keep the fresh instance's (empty) pending queue,
contract registry and event log. -/
def loadBlockchainState (st : StoredBlockchain) (fresh : BCState) : BCState :=
  { fresh with
    chain := st.blocks.map (fun b =>
      { block_number := b.block_number
        timestamp := b.timestamp
        transactions := b.transactions
        previous_hash := b.previous_hash
        hash := b.hash })
    accounts := st.accounts
    nonces := st.nonces }

/-- How `json.dump` followed by `json.load` transforms a Python dict key:
JSON object keys are strings, so an int key is written as its decimal string
and read back as that string; string keys are unchanged.  (A bool key would
become `"true"`/`"false"`; unhashable values cannot be dict keys.) -/
def jsonKey : Val → Val
  | .vInt n => .vStr (toString n)
  | .vBool b => .vStr (if b then "true" else "false")
  | v => v

/-- `IdentityVerificationContract.save_state` followed by
`storage_manager.load_contract_state` + `_load_state`: the four maps pass
through `json.dump`/`json.load`.  String-keyed maps and all stored values
(ints, strings, bools, lists of strings, nested string-keyed dicts) round-trip
exactly; the int keys of the inner `verification_records` dicts come back as
decimal strings. -/
def contractSaveLoad (m : ContractMaps) : ContractMaps :=
  { identity_records := m.identity_records
    verification_records := m.verification_records.map
      (fun p => (p.1, p.2.map (fun q => (jsonKey q.1, q.2))))
    access_grants := m.access_grants
    zkp_verifications := m.zkp_verifications }

/-- `get_verification_status` at the level of the verification-records map. -/
def getVerificationStatusMap (vr : List (String × List (Val × Int)))
    (owner_address : String) (verification_type : Int) : Int :=
  match alookup vr owner_address with
  | none => 0
  | some inner =>
      match alookup inner (.vInt verification_type) with
      | none => 0
      | some st => st

/-- Grant lookup for the `(owner, third_party)` pair. -/
def lookupGrant (grants : List (String × List (String × AccessGrant)))
    (owner_address third_party_address : String) : Option AccessGrant :=
  (alookup grants owner_address).bind (fun inner => alookup inner third_party_address)

/-- Whether the grant for `(owner, third_party)` exists and is revoked. -/
def grantRevoked (s : SysState) (owner_address third_party_address : String) : Bool :=
  match lookupGrant s.maps.access_grants owner_address third_party_address with
  | some g => g.revoked
  | none => false

/-- Whether an operation is a `grantAccess` call for the given pair (the only
operation that can replace a revoked grant). -/
def isGrantFor (owner_address third_party_address : String) : SysOp → Bool
  | .opGrantAccess _ _ _ o t _ _ _ => o = owner_address && t = third_party_address
  | _ => false

/-- The identity contract's own event list (the one `get_past_events` reads). -/
def contractEvents (s : SysState) : List Event :=
  match alookup s.bc.contracts s.contractAddress with
  | some c => c.events
  | none => []

/-! Concrete fixtures for counterexamples and witnesses. -/

/-- A concrete environment: the digest and data-size functions are irrelevant
to every claim, so any computable instantiation serves for evaluation. -/
def testEnv : Env := { sha256hex := fun s => s, dataSize := fun _ => 0 }

/-- The first two funded default accounts. -/
def addr0 : String := defaultAddress 0

/-- Second funded default account. -/
def addr1 : String := defaultAddress 1

/-- A grants map holding one live grant for ("alice","bob") expiring at 100. -/
def c1Grants : List (String × List (String × AccessGrant)) :=
  [("alice", [("bob",
    { expiry_timestamp := 100, data_types := ["facial"], granted_at := 0,
      revoked := false, revoked_at := none })])]

/-- grant → revoke → grant again for the same pair, by the owner. -/
def c2Seq : List SysOp :=
  [ .opGrantAccess 0 "hC" "hG" addr0 addr1 1000 ["facial"] addr0,
    .opRevokeAccess 1 "hR" addr0 addr1 addr0,
    .opGrantAccess 2 "hC2" "hG2" addr0 addr1 1000 ["facial"] addr0 ]

/-- A state whose ("alice","bob") grant is revoked. -/
def c2State : SysState :=
  { bc := initBC testEnv 0
    contractAddress := "0xid"
    maps :=
      { identity_records := [("alice",
          { created_at := 0, verification_types := [], third_party_access := [] })]
        verification_records := []
        access_grants := [("alice", [("bob",
          { expiry_timestamp := 1000, data_types := ["facial"], granted_at := 0,
            revoked := true, revoked_at := some 5 })])]
        zkp_verifications := [] } }

/-- A state with an existing identity for "alice" and no grants. -/
def c4State : SysState :=
  { bc := initBC testEnv 0
    contractAddress := "0xid"
    maps :=
      { identity_records := [("alice",
          { created_at := 0, verification_types := [], third_party_access := [] })]
        verification_records := []
        access_grants := []
        zkp_verifications := [] } }

/-- Contract maps holding one int-keyed verification entry: "alice"'s
GovernmentID (type 0) is Verified (1). -/
def c6Maps : ContractMaps :=
  { identity_records := []
    verification_records := [("alice", [(.vInt 0, 1)])]
    access_grants := []
    zkp_verifications := [] }

/-- State after a grantAccess by a funded owner on a fresh system. -/
def c7State : SysState :=
  runSys testEnv (initSys testEnv 0 "0xidentity")
    [.opGrantAccess 0 "hC" "hG" addr0 addr1 1000 ["facial"] addr0]

/-- A contract holding one "AccessGranted" event at block 2. -/
def c8Contract : MockContract :=
  { address := "0xc", name := "IdentityVerification", storage := []
    events := [{ name := "AccessGranted", args := [("user", .vStr "alice")],
                 transaction_hash := "h", block_number := 2, log_index := 0,
                 address := "0xc", timestamp := 0 }] }

/-- State after one `updateVerification(addr0, 0, 1, addr0)` on a fresh
system (the owner has no identity, so the call also creates it). -/
def c9s1 : SysState :=
  (updateVerification testEnv 0 "a" "b" addr0 0 1 addr0 (initSys testEnv 0 "0xid")).2

/-- State after repeating the identical call on `c9s1`. -/
def c9s2 : SysState :=
  (updateVerification testEnv 0 "a" "b" addr0 0 1 addr0 c9s1).2

/-- An undeployed-fresh contract with empty storage. -/
def emptyC : MockContract :=
  { address := "0xc", name := "C", storage := [], events := [] }

/-- A ledger state holding one synthetic event, for the C7 witness. -/
def c7bState : BCState :=
  { initBC testEnv 0 with
    events := [{ name := "grantAccessEvent", args := [], transaction_hash := "h",
                 block_number := 0, log_index := 0, address := "0xidentity",
                 timestamp := 0 }] }

/-- Spec-side link predicate: starting from `p`, each successive block's
`previous_hash` is its predecessor's hash and its number is the successor. -/
def linked : Block → List Block → Prop
  | _, [] => True
  | p, b :: bs => (b.previous_hash = p.hash ∧ b.block_number = p.block_number + 1) ∧ linked b bs

/-- The last block of the nonempty chain `g :: bs`. -/
def lastBlock (g : Block) (bs : List Block) : Block := bs.getLast?.getD g

/-- Spec-side invariant of claim C3: the chain is nonempty, starts at block
number 0 with the 64-zero previous hash, and every later block links to its
predecessor (consecutive numbers, matching hashes). -/
def chainInv : List Block → Prop
  | [] => False
  | g :: bs => g.block_number = 0 ∧ g.previous_hash = zeros64 ∧ linked g bs

/-! Association-list lemmas. -/

theorem alookup_ainsert_self {κ α : Type} [DecidableEq κ] (m : List (κ × α)) (k : κ) (v : α) :
    alookup (ainsert m k v) k = some v := by
  induction m with
  | nil => simp [ainsert, alookup]
  | cons p rest ih =>
      obtain ⟨a, b⟩ := p
      by_cases hp : a = k
      · subst hp
        simp [ainsert, alookup]
      · simp [ainsert, alookup, hp, ih]

theorem alookup_ainsert_ne {κ α : Type} [DecidableEq κ] (m : List (κ × α)) (k k' : κ) (v : α)
    (h : k' ≠ k) : alookup (ainsert m k v) k' = alookup m k' := by
  induction m with
  | nil => simp [ainsert, alookup, Ne.symm h]
  | cons p rest ih =>
      obtain ⟨a, b⟩ := p
      by_cases hp : a = k
      · subst hp
        simp [ainsert, alookup, Ne.symm h]
      · simp [ainsert, alookup, hp, ih]

theorem ainsert_lookup_eq {κ α : Type} [DecidableEq κ] (m : List (κ × α)) (k : κ) (v : α)
    (h : alookup m k = some v) : ainsert m k v = m := by
  induction m with
  | nil => simp [alookup] at h
  | cons p rest ih =>
      obtain ⟨a, b⟩ := p
      by_cases hp : a = k
      · subst hp
        simp [alookup] at h
        simp [ainsert, h]
      · simp [alookup, hp] at h
        simp [ainsert, hp, ih h]

/-- C1 (amended): `checkAccess(thirdParty, owner)` is true exactly when a
grant record exists for the pair, its `revoked` flag is clear, and
`now ≤ expiry_timestamp`; it is false when there is no grant, when revoked,
and when `expiry_timestamp < now` — strictly before now, so at the instant
`now` equals the expiry the access is still granted.  The function reads
state only: by its type it produces no new state, no transaction and no
event. -/
theorem C1_check_access_characterization
    (grants : List (String × List (String × AccessGrant)))
    (third_party_address owner_address : String) (now : Int) :
    checkAccessMap grants third_party_address owner_address now = true ↔
      ∃ g, lookupGrant grants owner_address third_party_address = some g ∧
        g.revoked = false ∧ now ≤ g.expiry_timestamp := by
  unfold checkAccessMap lookupGrant
  cases h1 : alookup grants owner_address with
  | none => simp
  | some inner =>
      cases h2 : alookup inner third_party_address with
      | none => simp [h2]
      | some g => simp [h2, not_lt, and_comm]

/-- C1 counterexample: at the instant `now` equals the grant's
`expiry_timestamp` (100), the code still returns true, while the claim
demands false for `now >= expiry_timestamp`. -/
theorem C1_counterexample : checkAccessMap c1Grants "bob" "alice" 100 = true := by
  decide

/-- C1 witness: the characterization applied at a concrete grant map and
instant. -/
theorem C1_witness : checkAccessMap c1Grants "bob" "alice" 50 = true :=
  (C1_check_access_characterization c1Grants "bob" "alice" 50).mpr
    ⟨{ expiry_timestamp := 100, data_types := ["facial"], granted_at := 0,
       revoked := false, revoked_at := none }, by decide, rfl, by decide⟩

/-- C8: `getPastEvents(name, fromBlock, toBlock?, filters?)` returns exactly
the contract's events with the given name, block number in the inclusive
range `[fromBlock, toBlock]` (no upper bound when `toBlock` is omitted), and
— under AND semantics — every filter key present in the event's `args` with
an exactly equal value; an event lacking a filter key is excluded. -/
theorem C8_get_past_events_characterization (c : MockContract) (event_name : String)
    (from_block : Nat) (to_block : Option Nat) (filters : List (String × Val)) (e : Event) :
    e ∈ c.getPastEvents event_name from_block to_block filters ↔
      e ∈ c.events ∧ e.name = event_name ∧ from_block ≤ e.block_number ∧
      (∀ tb, to_block = some tb → e.block_number ≤ tb) ∧
      (∀ kv ∈ filters, alookup e.args kv.1 = some kv.2) := by
  unfold MockContract.getPastEvents
  rw [List.mem_filter]
  simp only [Bool.and_eq_true, decide_eq_true_eq, List.all_eq_true]
  constructor
  · rintro ⟨he, ⟨⟨hn, hb⟩, ht⟩, hf⟩
    refine ⟨he, hn, hb, ?_, ?_⟩
    · intro tb htb
      subst htb
      simpa using ht
    · intro kv hkv
      have hkv' := hf kv hkv
      cases h : alookup e.args kv.1 with
      | none => rw [h] at hkv'; simp at hkv'
      | some w => rw [h] at hkv'; simp at hkv'; rw [hkv']
  · rintro ⟨he, hn, hb, ht, hf⟩
    refine ⟨he, ⟨⟨hn, hb⟩, ?_⟩, ?_⟩
    · cases to_block with
      | none => simp
      | some tb => simpa using ht tb rfl
    · intro kv hkv
      rw [hf kv hkv]
      simp

/-- C8 witness: the characterization applied at a concrete contract, event,
range and filter. -/
theorem C8_witness :
    { name := "AccessGranted", args := [("user", Val.vStr "alice")],
      transaction_hash := "h", block_number := 2, log_index := 0,
      address := "0xc", timestamp := 0 : Event } ∈
      c8Contract.getPastEvents "AccessGranted" 0 (some 2) [("user", .vStr "alice")] :=
  (C8_get_past_events_characterization c8Contract "AccessGranted" 0 (some 2)
      [("user", .vStr "alice")] _).mpr
    ⟨by decide, rfl, by decide, by intro tb htb; cases htb; decide,
     by intro kv hkv; simp at hkv; subst hkv; rfl⟩

/-- C10: a contract's read path is shadowed by its write path.  `call` is
read-only (by its type it returns a value and no new contract state).  After
`transact(f, args, from)`, `call(f, args)` returns the stored execution marker
`True`; a `call` whose `(function, args)` storage key was never written still
returns the canned default for its function-name pattern (100 for `balanceOf`,
1000 for `totalSupply`, `tokenId % 10` for `ownerOf`, "MockValue" for `get*`,
else None), and transacting one signature leaves every other storage key's
`call` result unchanged. -/
theorem C10_call_transact (env : Env) (now : Int) (txh : String) (c : MockContract)
    (function_name : String) (args : ArgMap) (from_address : String) :
    (MockContract.transact env now txh c function_name args from_address).2.call
        function_name args = some (.vBool true) ∧
    (∀ g bargs, canonKey g bargs ≠ canonKey function_name args →
      (MockContract.transact env now txh c function_name args from_address).2.call g bargs
        = c.call g bargs) ∧
    (∀ g bargs, alookup c.storage (canonKey g bargs) = none →
      c.call g bargs = defaultResult g bargs) ∧
    defaultResult "balanceOf" [] = some (.vInt 100) ∧
    defaultResult "totalSupply" [] = some (.vInt 1000) := by
  refine ⟨?_, ?_, ?_, by decide, by decide⟩
  · simp [MockContract.transact, MockContract.call, alookup_ainsert_self]
  · intro g bargs h
    simp [MockContract.transact, MockContract.call, alookup_ainsert_ne _ _ _ _ h]
  · intro g bargs h
    simp [MockContract.call, h]

/-- C10 witness: transact then call on a concrete fresh contract, and a
canned default on a never-transacted signature. -/
theorem C10_witness :
    (MockContract.transact testEnv 0 "h" emptyC "setFlag" [] "x").2.call "setFlag" []
      = some (.vBool true) ∧
    emptyC.call "balanceOf" [] = defaultResult "balanceOf" [] :=
  ⟨(C10_call_transact testEnv 0 "h" emptyC "setFlag" [] "x").1,
   (C10_call_transact testEnv 0 "h" emptyC "setFlag" [] "x").2.2.1 "balanceOf" [] rfl⟩

/-- C4: every listed validation failure is raised synchronously before any
mutation: `createIdentity` raising `DuplicateIdentity` on an existing owner,
`grantAccess`/`revokeAccess` raising `Unauthorized` when the sender is not the
owner, `revokeAccess` raising `NotFound` when no grant exists for the pair,
and `recordZkpVerification` raising `Unauthorized` when the verifier lacks
access — each returns the input state untouched: identity, verification,
access-grant and ZKP maps, the chain, and the pending queue are all as
before. -/
theorem C4_validation_rejects_atomically (env : Env) (s : SysState) (now : Int) :
    (∀ txh owner frm, acontains s.maps.identity_records owner = true →
      createIdentity env now txh owner frm s = (.error .duplicateIdentity, s)) ∧
    (∀ txhC txh owner tp expiry dts frm, frm ≠ owner →
      grantAccess env now txhC txh owner tp expiry dts frm s = (.error .unauthorized, s)) ∧
    (∀ txh owner tp frm, frm ≠ owner →
      revokeAccess env now txh owner tp frm s = (.error .unauthorized, s)) ∧
    (∀ txh owner tp, alookup ((alookup s.maps.access_grants owner).getD []) tp = none →
      revokeAccess env now txh owner tp owner s = (.error .notFound, s)) ∧
    (∀ txh owner ph dt frm, s.checkAccess frm owner now = false →
      recordZkpVerification env now txh owner ph dt frm s = (.error .unauthorized, s)) := by
  refine ⟨?_, ?_, ?_, ?_, ?_⟩
  · intro txh owner frm h
    simp [createIdentity, h]
  · intro txhC txh owner tp expiry dts frm h
    simp [grantAccess, h]
  · intro txh owner tp frm h
    simp [revokeAccess, h]
  · intro txh owner tp h
    simp [revokeAccess, h]
  · intro txh owner ph dt frm h
    simp [recordZkpVerification, h]

/-- C4 witness: each rejection at a concrete state (an existing "alice"
identity, no grants). -/
theorem C4_witness :
    createIdentity testEnv 5 "h" "alice" "alice" c4State = (.error .duplicateIdentity, c4State) ∧
    grantAccess testEnv 5 "h1" "h2" "alice" "bob" 100 ["facial"] "mallory" c4State
      = (.error .unauthorized, c4State) ∧
    revokeAccess testEnv 5 "h" "alice" "bob" "mallory" c4State = (.error .unauthorized, c4State) ∧
    revokeAccess testEnv 5 "h" "alice" "bob" "alice" c4State = (.error .notFound, c4State) ∧
    recordZkpVerification testEnv 5 "h" "alice" "p" "facial" "bob" c4State
      = (.error .unauthorized, c4State) :=
  ⟨(C4_validation_rejects_atomically testEnv c4State 5).1 "h" "alice" "alice" (by decide),
   (C4_validation_rejects_atomically testEnv c4State 5).2.1 "h1" "h2" "alice" "bob" 100
      ["facial"] "mallory" (by decide),
   (C4_validation_rejects_atomically testEnv c4State 5).2.2.1 "h" "alice" "bob" "mallory"
      (by decide),
   (C4_validation_rejects_atomically testEnv c4State 5).2.2.2.1 "h" "alice" "bob" (by decide),
   (C4_validation_rejects_atomically testEnv c4State 5).2.2.2.2 "h" "alice" "p" "facial" "bob"
      (by decide)⟩

/-- C5: `createTransaction` raises `InsufficientBalance` exactly when the
sender's recorded balance (0 for an unknown sender) is below the fixed 21000
minimum-gas threshold, in which case nothing changes (the model's
error-before-state type mirrors the source's raise-before-mutation);
otherwise the sender's nonce rises by exactly one (others untouched), exactly
one transaction is appended to the pending queue, and the chain, accounts,
contracts and events are unchanged — no block is mined. -/
theorem C5_create_transaction_spec (env : Env) (now : Int) (txh from_address to_address
    function_name : String) (data : ArgMap) (s : BCState) :
    (s.balanceOf from_address < 21000 →
      createTransaction env now txh from_address to_address function_name data s
        = .error .insufficientBalance) ∧
    (21000 ≤ s.balanceOf from_address →
      ∃ tx s', createTransaction env now txh from_address to_address function_name data s
          = .ok (tx, s') ∧
        s'.nonceOf from_address = s.nonceOf from_address + 1 ∧
        (∀ a, a ≠ from_address → alookup s'.nonces a = alookup s.nonces a) ∧
        s'.pending_transactions = s.pending_transactions ++ [tx] ∧
        s'.chain = s.chain ∧ s'.accounts = s.accounts ∧
        s'.contracts = s.contracts ∧ s'.events = s.events) := by
  constructor
  · intro h
    simp [createTransaction, h]
  · intro h
    refine ⟨mkTransaction env now txh from_address (some to_address) data function_name,
      { s with
        nonces := ainsert s.nonces from_address (s.nonceOf from_address + 1)
        pending_transactions := s.pending_transactions ++
          [mkTransaction env now txh from_address (some to_address) data function_name] },
      ?_, ?_, ?_, rfl, rfl, rfl, rfl, rfl⟩
    · simp [createTransaction, not_lt.mpr h]
    · simp [BCState.nonceOf, alookup_ainsert_self]
    · intro a ha
      simp [alookup_ainsert_ne _ _ _ _ ha]

/-- C5 witness: a funded default account succeeds with the stated effects; an
unknown sender (balance 0) is rejected. -/
theorem C5_witness :
    createTransaction testEnv 0 "h" "nobody" "0xto" "f" [] (initBC testEnv 0)
      = .error .insufficientBalance ∧
    ∃ tx s', createTransaction testEnv 0 "h" addr0 "0xto" "f" [] (initBC testEnv 0)
        = .ok (tx, s') ∧
      s'.nonceOf addr0 = (initBC testEnv 0).nonceOf addr0 + 1 ∧
      (∀ a, a ≠ addr0 → alookup s'.nonces a = alookup (initBC testEnv 0).nonces a) ∧
      s'.pending_transactions = (initBC testEnv 0).pending_transactions ++ [tx] ∧
      s'.chain = (initBC testEnv 0).chain ∧ s'.accounts = (initBC testEnv 0).accounts ∧
      s'.contracts = (initBC testEnv 0).contracts ∧ s'.events = (initBC testEnv 0).events :=
  ⟨(C5_create_transaction_spec testEnv 0 "h" "nobody" "0xto" "f" [] (initBC testEnv 0)).1
      (by decide),
   (C5_create_transaction_spec testEnv 0 "h" addr0 "0xto" "f" [] (initBC testEnv 0)).2
      (by decide)⟩

/-- The ledger snapshot round-trips its chain, accounts and nonces exactly:
every persisted field there is a string-keyed map or a JSON-stable scalar. -/
theorem blockchain_roundtrip_exact (s fresh : BCState) :
    (loadBlockchainState (saveBlockchainState s) fresh).chain = s.chain ∧
    (loadBlockchainState (saveBlockchainState s) fresh).accounts = s.accounts ∧
    (loadBlockchainState (saveBlockchainState s) fresh).nonces = s.nonces := by
  refine ⟨?_, rfl, rfl⟩
  have heta : (fun b : Block =>
      ({ block_number := b.block_number, timestamp := b.timestamp,
         transactions := b.transactions, previous_hash := b.previous_hash,
         hash := b.hash } : Block)) = fun b => b := rfl
  simp [loadBlockchainState, saveBlockchainState, heta]

/-- C6 (code bug, failing input): the contract-state JSON round trip turns the
int keys of the inner `verification_records` dicts into decimal strings, so a
saved-then-loaded state is not exactly equal to the saved one, and
`get_verification_status` — which looks up the int key — silently reports
Pending (0) for an entry that was Verified (1) before the reload.  The other
three maps, and the ledger's chain/accounts/nonces, do round-trip exactly. -/
theorem C6_roundtrip_loses_int_keys :
    contractSaveLoad c6Maps ≠ c6Maps ∧
    (contractSaveLoad c6Maps).verification_records = [("alice", [(.vStr "0", 1)])] ∧
    getVerificationStatusMap c6Maps.verification_records "alice" 0 = 1 ∧
    getVerificationStatusMap (contractSaveLoad c6Maps).verification_records "alice" 0 = 0 := by
  refine ⟨by decide, by decide, by decide, by decide⟩

/-- C7 (amended): `getLogs(fromBlock, toBlock, address?, topics?)` returns
exactly the events in the ledger's global event list whose block number lies
in the inclusive range `[fromBlock, toBlock]` (`toBlock` defaulting to the
chain head's number) and, when a non-empty address is given, whose emitting
address matches.  Only the synthetic `"<functionName>Event"` entries appended
during `mineBlock` reach that global list; the identity contract's domain
events (`AccessGranted`, `VerificationUpdated`, ...) are recorded only in the
contract's own event list and are invisible to `getLogs`. -/
theorem C7_get_logs_characterization (s : BCState) (from_block : Nat)
    (to_block : Option Nat) (address : Option String) (e : Event) :
    e ∈ getLogs s from_block to_block address ↔
      e ∈ s.events ∧ from_block ≤ e.block_number ∧
      e.block_number ≤ to_block.getD s.lastBlockNumber ∧
      (∀ a, address = some a → a ≠ "" → e.address = a) := by
  unfold getLogs
  rw [List.mem_filter]
  simp only [Bool.and_eq_true, decide_eq_true_eq]
  constructor
  · rintro ⟨he, ⟨hf, ht⟩, ha⟩
    refine ⟨he, hf, ht, ?_⟩
    intro a haddr hne
    subst haddr
    simpa [hne] using ha
  · rintro ⟨he, hf, ht, ha⟩
    refine ⟨he, ⟨hf, ht⟩, ?_⟩
    cases address with
    | none => simp
    | some a =>
        by_cases hne : a = ""
        · simp [hne]
        · simp [hne, ha a rfl hne]

/-- C7 counterexample: after a `grantAccess` by a funded owner, the contract's
own event list holds the `AccessGranted` domain event, yet `getLogs` over the
full range (no address filter) returns no event of that name. -/
theorem C7_counterexample :
    ((getLogs c7State.bc 0 none none).filter (fun e => e.name == "AccessGranted")) = [] ∧
    ((contractEvents c7State).filter (fun e => e.name == "AccessGranted")).length = 1 := by
  refine ⟨by decide, by decide⟩

/-- C7 witness: the characterization applied at a concrete ledger state with
one synthetic mined event. -/
theorem C7_witness :
    { name := "grantAccessEvent", args := [], transaction_hash := "h", block_number := 0,
      log_index := 0, address := "0xidentity", timestamp := 0 : Event } ∈
      getLogs c7bState 0 none (some "0xidentity") :=
  (C7_get_logs_characterization c7bState 0 none (some "0xidentity") _).mpr
    ⟨by decide, by decide, by decide, by intro a ha hne; cases ha; rfl⟩

/-! Chain-shape lemmas for C3. -/

theorem getLast?_cons_eq (bs : List Block) (g : Block) :
    (g :: bs).getLast? = some (lastBlock g bs) := by
  induction bs generalizing g with
  | nil => rfl
  | cons b bs ih =>
      rw [List.getLast?_cons_cons, ih b]
      unfold lastBlock
      rw [ih b]
      rfl

theorem linked_append (g b : Block) (bs : List Block) (h : linked g bs)
    (hprev : b.previous_hash = (lastBlock g bs).hash)
    (hnum : b.block_number = (lastBlock g bs).block_number + 1) :
    linked g (bs ++ [b]) := by
  induction bs generalizing g with
  | nil => exact ⟨⟨hprev, hnum⟩, trivial⟩
  | cons c bs ih =>
      obtain ⟨hgc, hl⟩ := h
      have hlb : lastBlock g (c :: bs) = lastBlock c bs := by
        unfold lastBlock
        rw [getLast?_cons_eq bs c]
        rfl
      rw [hlb] at hprev hnum
      exact ⟨hgc, ih c hl hprev hnum⟩

theorem mineStep_block_meta (env : Env) (now : Int) (acc : MineAcc) (tx : Transaction) :
    (mineStep env now acc tx).block.block_number = acc.block.block_number ∧
    (mineStep env now acc tx).block.previous_hash = acc.block.previous_hash := by
  unfold mineStep
  dsimp only
  split
  · split <;> simp [Block.addTransaction]
  · simp [Block.addTransaction]

theorem mineFold_block_meta (env : Env) (now : Int) (txs : List Transaction) (acc : MineAcc) :
    (txs.foldl (mineStep env now) acc).block.block_number = acc.block.block_number ∧
    (txs.foldl (mineStep env now) acc).block.previous_hash = acc.block.previous_hash := by
  induction txs generalizing acc with
  | nil => exact ⟨rfl, rfl⟩
  | cons t ts ih =>
      simp only [List.foldl_cons]
      exact ⟨((ih (mineStep env now acc t)).1).trans (mineStep_block_meta env now acc t).1,
             ((ih (mineStep env now acc t)).2).trans (mineStep_block_meta env now acc t).2⟩

theorem mineBlock_chain_spec (env : Env) (now : Int) (s : BCState) :
    ∃ b, ((mineBlock env now s).2).chain = s.chain ++ [b] ∧
      b.block_number
        = (s.chain.getLast?.getD (Block.init env 0 now zeros64)).block_number + 1 ∧
      b.previous_hash = (s.chain.getLast?.getD (Block.init env 0 now zeros64)).hash := by
  refine ⟨_, rfl, ?_, ?_⟩
  · exact (mineFold_block_meta env now s.pending_transactions _).1
  · exact (mineFold_block_meta env now s.pending_transactions _).2

theorem chainInv_mineBlock (env : Env) (now : Int) (s : BCState) (h : chainInv s.chain) :
    chainInv ((mineBlock env now s).2).chain ∧
    ((mineBlock env now s).2).chain.length = s.chain.length + 1 := by
  obtain ⟨b, hchain, hnum, hprev⟩ := mineBlock_chain_spec env now s
  cases hc : s.chain with
  | nil => rw [hc] at h; exact absurd h (by simp [chainInv])
  | cons g bs =>
      rw [hc] at hchain hnum hprev h
      obtain ⟨h0, hz, hl⟩ := h
      rw [getLast?_cons_eq bs g, Option.getD_some] at hnum hprev
      rw [hchain]
      constructor
      · exact ⟨h0, hz, linked_append g b bs hl hprev hnum⟩
      · simp

theorem chain_applyLedgerOp_createTx (env : Env) (s : BCState) (now : Int)
    (txh f t fn : String) (d : ArgMap) :
    (applyLedgerOp env s (.createTx now txh f t fn d)).chain = s.chain := by
  have happ : applyLedgerOp env s (.createTx now txh f t fn d)
      = (match createTransaction env now txh f t fn d s with
         | .ok (_, s') => s'
         | .error _ => s) := rfl
  rw [happ]
  cases hct : createTransaction env now txh f t fn d s with
  | error e => rfl
  | ok p =>
      obtain ⟨tx, s'⟩ := p
      unfold createTransaction at hct
      split at hct
      · exact absurd hct (by simp)
      · simp only [Except.ok.injEq, Prod.mk.injEq] at hct
        obtain ⟨-, hs⟩ := hct
        rw [← hs]

theorem runLedger_inv (env : Env) (ops : List LedgerOp) :
    ∀ s : BCState, chainInv s.chain →
      chainInv (runLedger env s ops).chain ∧
      (runLedger env s ops).chain.length = s.chain.length + mineCount ops := by
  induction ops with
  | nil =>
      intro s h
      exact ⟨h, by simp [runLedger, mineCount]⟩
  | cons op ops ih =>
      intro s h
      cases op with
      | mine now =>
          obtain ⟨h1, h2⟩ := chainInv_mineBlock env now s h
          have happ : applyLedgerOp env s (.mine now) = (mineBlock env now s).2 := rfl
          obtain ⟨h3, h4⟩ := ih (applyLedgerOp env s (.mine now)) (by rwa [happ])
          refine ⟨h3, ?_⟩
          have hlen : (applyLedgerOp env s (.mine now)).chain.length = s.chain.length + 1 := by
            rw [happ]; exact h2
          have hmc : mineCount (LedgerOp.mine now :: ops) = mineCount ops + 1 := by
            simp [mineCount, List.countP_cons]
          calc (runLedger env s (LedgerOp.mine now :: ops)).chain.length
              = (runLedger env (applyLedgerOp env s (.mine now)) ops).chain.length := rfl
            _ = (applyLedgerOp env s (.mine now)).chain.length + mineCount ops := h4
            _ = s.chain.length + 1 + mineCount ops := by rw [hlen]
            _ = s.chain.length + mineCount (LedgerOp.mine now :: ops) := by rw [hmc]; omega
      | createTx now txh f t fn d =>
          have hchain := chain_applyLedgerOp_createTx env s now txh f t fn d
          have h1 : chainInv (applyLedgerOp env s (.createTx now txh f t fn d)).chain := by
            rwa [hchain]
          obtain ⟨h3, h4⟩ := ih _ h1
          refine ⟨h3, ?_⟩
          have hmc : mineCount (LedgerOp.createTx now txh f t fn d :: ops) = mineCount ops := by
            simp [mineCount, List.countP_cons]
          calc (runLedger env s (LedgerOp.createTx now txh f t fn d :: ops)).chain.length
              = (applyLedgerOp env s (.createTx now txh f t fn d)).chain.length
                  + mineCount ops := h4
            _ = s.chain.length + mineCount ops := by rw [hchain]
            _ = s.chain.length + mineCount (LedgerOp.createTx now txh f t fn d :: ops) := by
                  rw [hmc]

/-- C3: starting from a freshly initialized ledger (genesis block number 0
with the 64-zero previous hash), after any interleaving of `mineBlock` and
`createTransaction` calls the chain has exactly one block more than the
number of mine calls, block numbers are consecutive from 0, and every block's
`previous_hash` equals its predecessor's (final) hash — `chainInv` spells out
precisely these three facts. -/
theorem C3_chain_invariant (env : Env) (t0 : Int) (ops : List LedgerOp) :
    chainInv (runLedger env (initBC env t0) ops).chain ∧
    (runLedger env (initBC env t0) ops).chain.length = 1 + mineCount ops := by
  have h0 : chainInv (initBC env t0).chain := ⟨rfl, rfl, trivial⟩
  obtain ⟨h1, h2⟩ := runLedger_inv env ops (initBC env t0) h0
  refine ⟨h1, ?_⟩
  rw [h2]
  have hlen : (initBC env t0).chain.length = 1 := rfl
  omega

/-! State-preservation lemmas for C2. -/

theorem emitDomainEvent_maps (now : Int) (n : String) (a : ArgMap) (txh : String)
    (s : SysState) : (emitDomainEvent now n a txh s).maps = s.maps := by
  unfold emitDomainEvent
  split <;> rfl

theorem createIdentity_access_grants (env : Env) (now : Int) (txh o f : String) (s : SysState) :
    (createIdentity env now txh o f s).2.maps.access_grants = s.maps.access_grants := by
  unfold createIdentity
  split
  · rfl
  · dsimp only
    split
    · rfl
    · simp [emitDomainEvent_maps]

theorem updateVerification_access_grants (env : Env) (now : Int) (txhC txh o : String)
    (vt st : Int) (f : String) (s : SysState) :
    (updateVerification env now txhC txh o vt st f s).2.maps.access_grants
      = s.maps.access_grants := by
  unfold updateVerification
  by_cases hid : acontains s.maps.identity_records o = true
  · rw [hid, if_pos rfl]
    try dsimp only
    split
    · rfl
    · simp [emitDomainEvent_maps]
  · rw [Bool.not_eq_true] at hid
    rw [hid, if_neg Bool.false_ne_true]
    cases hci : createIdentity env now txhC o f s with
    | mk r s' =>
        have hg : s'.maps.access_grants = s.maps.access_grants := by
          have h0 := createIdentity_access_grants env now txhC o f s
          rw [hci] at h0
          exact h0
        cases r with
        | error e => exact hg
        | ok u =>
            try dsimp only
            split
            · exact hg
            · simp only [emitDomainEvent_maps]
              exact hg

theorem recordZkp_access_grants (env : Env) (now : Int) (txh o ph dt f : String)
    (s : SysState) :
    (recordZkpVerification env now txh o ph dt f s).2.maps.access_grants
      = s.maps.access_grants := by
  unfold recordZkpVerification
  split
  · rfl
  · dsimp only
    split
    · rfl
    · simp [emitDomainEvent_maps]

theorem mineOp_maps (env : Env) (now : Int) (s : SysState) :
    (applySysOp env s (.opMine now)).maps = s.maps := rfl

theorem createTxOp_maps (env : Env) (now : Int) (txh f t fn : String) (d : ArgMap)
    (s : SysState) : (applySysOp env s (.opCreateTx now txh f t fn d)).maps = s.maps := by
  have happ : applySysOp env s (.opCreateTx now txh f t fn d)
      = (match createTransaction env now txh f t fn d s.bc with
         | .ok (_, bc) => { s with bc := bc }
         | .error _ => s) := rfl
  rw [happ]
  cases createTransaction env now txh f t fn d s.bc with
  | ok p => cases p; rfl
  | error e => rfl

/-- Overwriting the grant of a pair other than `(owner, tp)` leaves the
`(owner, tp)` grant lookup unchanged. -/
theorem lookupGrant_overwrite_other (grants : List (String × List (String × AccessGrant)))
    (owner tp o' t' : String) (g' : AccessGrant) (hne : ¬(o' = owner ∧ t' = tp)) :
    lookupGrant (ainsert grants o' (ainsert ((alookup grants o').getD []) t' g')) owner tp
      = lookupGrant grants owner tp := by
  unfold lookupGrant
  by_cases ho : o' = owner
  · subst ho
    have ht : t' ≠ tp := fun h => hne ⟨rfl, h⟩
    rw [alookup_ainsert_self]
    cases hg : alookup grants o' with
    | none => simp [hg, alookup_ainsert_ne _ _ _ _ (Ne.symm ht), alookup, ht]
    | some inner => simp [hg, alookup_ainsert_ne _ _ _ _ (Ne.symm ht)]
  · rw [alookup_ainsert_ne _ _ _ _ (Ne.symm ho)]

theorem grantRevoked_eq_of_grants (s s' : SysState) (owner tp : String)
    (hg : s'.maps.access_grants = s.maps.access_grants) :
    grantRevoked s' owner tp = grantRevoked s owner tp := by
  unfold grantRevoked lookupGrant
  rw [hg]

theorem grantRevoked_emitDomainEvent (now : Int) (n : String) (a : ArgMap) (txh : String)
    (s : SysState) (owner tp : String) :
    grantRevoked (emitDomainEvent now n a txh s) owner tp = grantRevoked s owner tp := by
  unfold grantRevoked lookupGrant
  rw [emitDomainEvent_maps]

theorem grantAccess_preserves_revoked (env : Env) (now : Int) (txhC txh o' t' : String)
    (expiry : Int) (dts : List String) (f : String) (s : SysState) (owner tp : String)
    (hne : ¬(o' = owner ∧ t' = tp)) (h : grantRevoked s owner tp = true) :
    grantRevoked (grantAccess env now txhC txh o' t' expiry dts f s).2 owner tp = true := by
  unfold grantAccess
  split
  · exact h
  · by_cases hid : acontains s.maps.identity_records o' = true
    · rw [hid, if_pos rfl]
      try dsimp only
      split
      · unfold grantRevoked at h ⊢
        try dsimp only
        rw [lookupGrant_overwrite_other _ owner tp o' t' _ hne]
        exact h
      · rw [grantRevoked_emitDomainEvent]
        unfold grantRevoked at h ⊢
        try dsimp only
        rw [lookupGrant_overwrite_other _ owner tp o' t' _ hne]
        exact h
    · rw [Bool.not_eq_true] at hid
      rw [hid, if_neg Bool.false_ne_true]
      cases hci : createIdentity env now txhC o' f s with
      | mk r s' =>
          have hg : s'.maps.access_grants = s.maps.access_grants := by
            have h0 := createIdentity_access_grants env now txhC o' f s
            rw [hci] at h0
            exact h0
          cases r with
          | error e =>
              rw [grantRevoked_eq_of_grants s s' owner tp hg]
              exact h
          | ok u =>
              try dsimp only
              split
              · unfold grantRevoked at h ⊢
                try dsimp only
                rw [lookupGrant_overwrite_other _ owner tp o' t' _ hne, hg]
                exact h
              · rw [grantRevoked_emitDomainEvent]
                unfold grantRevoked at h ⊢
                try dsimp only
                rw [lookupGrant_overwrite_other _ owner tp o' t' _ hne, hg]
                exact h

theorem revokeAccess_preserves_revoked (env : Env) (now : Int) (txh o' t' f : String)
    (s : SysState) (owner tp : String) (h : grantRevoked s owner tp = true) :
    grantRevoked (revokeAccess env now txh o' t' f s).2 owner tp = true := by
  unfold revokeAccess
  split
  · exact h
  · try dsimp only
    split
    · exact h
    · by_cases hne : o' = owner ∧ t' = tp
      · obtain ⟨ho, ht⟩ := hne
        subst ho
        subst ht
        split
        · unfold grantRevoked lookupGrant
          try dsimp only
          rw [alookup_ainsert_self]
          simp [alookup_ainsert_self]
        · rw [grantRevoked_emitDomainEvent]
          unfold grantRevoked lookupGrant
          try dsimp only
          rw [alookup_ainsert_self]
          simp [alookup_ainsert_self]
      · split
        · unfold grantRevoked at h ⊢
          try dsimp only
          rw [lookupGrant_overwrite_other _ owner tp o' t' _ hne]
          exact h
        · rw [grantRevoked_emitDomainEvent]
          unfold grantRevoked at h ⊢
          try dsimp only
          rw [lookupGrant_overwrite_other _ owner tp o' t' _ hne]
          exact h

theorem applySysOp_preserves_revoked (env : Env) (s : SysState) (owner tp : String)
    (op : SysOp) (hop : isGrantFor owner tp op = false)
    (h : grantRevoked s owner tp = true) :
    grantRevoked (applySysOp env s op) owner tp = true := by
  cases op with
  | opCreateIdentity now txh o f =>
      show grantRevoked (createIdentity env now txh o f s).2 owner tp = true
      rw [grantRevoked_eq_of_grants s _ owner tp (createIdentity_access_grants env now txh o f s)]
      exact h
  | opUpdateVerification now txhC txh o vt st f =>
      show grantRevoked (updateVerification env now txhC txh o vt st f s).2 owner tp = true
      rw [grantRevoked_eq_of_grants s _ owner tp
        (updateVerification_access_grants env now txhC txh o vt st f s)]
      exact h
  | opGrantAccess now txhC txh o t expiry dts f =>
      have hne : ¬(o = owner ∧ t = tp) := by
        rintro ⟨h1, h2⟩
        rw [isGrantFor] at hop
        simp [h1, h2] at hop
      exact grantAccess_preserves_revoked env now txhC txh o t expiry dts f s owner tp hne h
  | opRevokeAccess now txh o t f =>
      exact revokeAccess_preserves_revoked env now txh o t f s owner tp h
  | opRecordZkp now txh o ph dt f =>
      show grantRevoked (recordZkpVerification env now txh o ph dt f s).2 owner tp = true
      rw [grantRevoked_eq_of_grants s _ owner tp (recordZkp_access_grants env now txh o ph dt f s)]
      exact h
  | opMine now =>
      rw [grantRevoked_eq_of_grants s _ owner tp
        (congrArg ContractMaps.access_grants (mineOp_maps env now s))]
      exact h
  | opCreateTx now txh f t fn d =>
      rw [grantRevoked_eq_of_grants s _ owner tp
        (congrArg ContractMaps.access_grants (createTxOp_maps env now txh f t fn d s))]
      exact h

theorem runSys_preserves_revoked (env : Env) (owner tp : String) (ops : List SysOp) :
    ∀ s : SysState, grantRevoked s owner tp = true →
      (∀ op ∈ ops, isGrantFor owner tp op = false) →
      grantRevoked (runSys env s ops) owner tp = true := by
  induction ops with
  | nil => exact fun s h _ => h
  | cons op ops ih =>
      intro s h hops
      have h1 := applySysOp_preserves_revoked env s owner tp op (hops op (by simp)) h
      exact ih (applySysOp env s op) h1 (fun o ho => hops o (by simp [ho]))

theorem checkAccess_false_of_revoked (s : SysState) (owner tp : String) (now : Int)
    (h : grantRevoked s owner tp = true) : s.checkAccess tp owner now = false := by
  unfold SysState.checkAccess checkAccessMap
  unfold grantRevoked lookupGrant at h
  cases h1 : alookup s.maps.access_grants owner with
  | none => simp [h1]
  | some inner =>
      cases h2 : alookup inner tp with
      | none => simp [h1, h2]
      | some g =>
          rw [h1] at h
          simp only [Option.some_bind, h2] at h
          simp [h1, h2, h]

/-- C2 (amended): once the grant for `(owner, thirdParty)` is revoked,
`checkAccess(thirdParty, owner)` is false at every later point and stays
false under any sequence of operations that contains no further
`grantAccess` call for the same pair, regardless of expiry.  (A later
`grantAccess(owner, thirdParty, ...)` overwrites the record with a fresh
unrevoked grant, so revocation is not terminal across regrants.) -/
theorem C2_revoked_persists_until_regrant (env : Env) (s : SysState) (owner tp : String)
    (ops : List SysOp) (h : grantRevoked s owner tp = true)
    (hops : ∀ op ∈ ops, isGrantFor owner tp op = false) (now : Int) :
    (runSys env s ops).checkAccess tp owner now = false :=
  checkAccess_false_of_revoked _ owner tp now (runSys_preserves_revoked env owner tp ops s h hops)

/-- C2 counterexample: grant → revoke → grant again for the same pair; after
the second grant, `checkAccess` is true again, refuting "revoked is terminal
regardless of subsequent operations (including further grantAccess calls)". -/
theorem C2_counterexample :
    (runSys testEnv (initSys testEnv 0 "0xidentity") c2Seq).checkAccess addr1 addr0 3 = true := by
  decide

/-- C2 witness: a concrete revoked state stays revoked across a mine. -/
theorem C2_witness :
    (runSys testEnv c2State [SysOp.opMine 3]).checkAccess "bob" "alice" 10 = false :=
  C2_revoked_persists_until_regrant testEnv c2State "alice" "bob" [SysOp.opMine 3] (by decide)
    (by
      intro op hop
      rw [List.mem_singleton] at hop
      subst hop
      rfl) 10

/-! Success-shape lemmas for C9. -/

theorem createTransaction_ok (env : Env) (now : Int) (txh f t fn : String) (d : ArgMap)
    (s : BCState) (h : 21000 ≤ s.balanceOf f) :
    createTransaction env now txh f t fn d s
      = .ok (mkTransaction env now txh f (some t) d fn,
          { s with
            nonces := ainsert s.nonces f (s.nonceOf f + 1)
            pending_transactions := s.pending_transactions
              ++ [mkTransaction env now txh f (some t) d fn] }) := by
  unfold createTransaction
  rw [if_neg (not_lt.mpr h)]

theorem mineBlock_accounts (env : Env) (now : Int) (s : BCState) :
    ((mineBlock env now s).2).accounts = s.accounts := rfl

theorem emitDomainEvent_accounts (now : Int) (n : String) (a : ArgMap) (txh : String)
    (s : SysState) : (emitDomainEvent now n a txh s).bc.accounts = s.bc.accounts := by
  unfold emitDomainEvent
  split
  · rfl
  · rfl

theorem emitDomainEvent_addr (now : Int) (n : String) (a : ArgMap) (txh : String)
    (s : SysState) : (emitDomainEvent now n a txh s).contractAddress = s.contractAddress := by
  unfold emitDomainEvent
  split
  · rfl
  · rfl

theorem balanceOf_eq_of_accounts (b b' : BCState) (h : b'.accounts = b.accounts) (a : String) :
    b'.balanceOf a = b.balanceOf a := by
  unfold BCState.balanceOf
  rw [h]

theorem createIdentity_success (env : Env) (now : Int) (txh o f : String) (s : SysState)
    (hid : acontains s.maps.identity_records o = false)
    (hbal : 21000 ≤ s.bc.balanceOf f) :
    (createIdentity env now txh o f s).1 = .ok () ∧
    (createIdentity env now txh o f s).2.maps.identity_records
      = ainsert s.maps.identity_records o
          { created_at := now, verification_types := [], third_party_access := [] } ∧
    (createIdentity env now txh o f s).2.maps.verification_records
      = s.maps.verification_records ∧
    (createIdentity env now txh o f s).2.maps.access_grants = s.maps.access_grants ∧
    (createIdentity env now txh o f s).2.maps.zkp_verifications = s.maps.zkp_verifications ∧
    (createIdentity env now txh o f s).2.bc.accounts = s.bc.accounts ∧
    (createIdentity env now txh o f s).2.contractAddress = s.contractAddress := by
  unfold createIdentity
  rw [hid, if_neg Bool.false_ne_true]
  try dsimp only
  rw [createTransaction_ok env now txh f s.contractAddress "createIdentity" _ s.bc hbal]
  try dsimp only
  refine ⟨rfl, ?_, ?_, ?_, ?_, ?_, ?_⟩ <;>
    simp [emitDomainEvent_maps, emitDomainEvent_accounts, emitDomainEvent_addr,
      mineBlock_accounts]

theorem updateVerification_success (env : Env) (now : Int) (txhC txh o : String)
    (vt st : Int) (f : String) (s : SysState) (hbal : 21000 ≤ s.bc.balanceOf f) :
    (updateVerification env now txhC txh o vt st f s).1 = .ok () ∧
    acontains (updateVerification env now txhC txh o vt st f s).2.maps.identity_records o
      = true ∧
    (updateVerification env now txhC txh o vt st f s).2.maps.verification_records
      = ainsert s.maps.verification_records o
          (ainsert ((alookup s.maps.verification_records o).getD []) (.vInt vt) st) ∧
    (updateVerification env now txhC txh o vt st f s).2.maps.access_grants
      = s.maps.access_grants ∧
    (updateVerification env now txhC txh o vt st f s).2.maps.zkp_verifications
      = s.maps.zkp_verifications ∧
    (updateVerification env now txhC txh o vt st f s).2.bc.accounts = s.bc.accounts ∧
    (updateVerification env now txhC txh o vt st f s).2.contractAddress
      = s.contractAddress ∧
    (updateVerification env now txhC txh o vt st f s).2.maps.identity_records
      = (if acontains s.maps.identity_records o = true then s.maps.identity_records
         else ainsert s.maps.identity_records o
           { created_at := now, verification_types := [], third_party_access := [] }) := by
  unfold updateVerification
  by_cases hid : acontains s.maps.identity_records o = true
  · rw [hid, if_pos rfl]
    try dsimp only
    rw [createTransaction_ok env now txh f s.contractAddress "updateVerification" _ s.bc hbal]
    try dsimp only
    refine ⟨rfl, ?_, ?_, ?_, ?_, ?_, ?_, ?_⟩ <;>
      simp [emitDomainEvent_maps, emitDomainEvent_accounts, emitDomainEvent_addr,
        mineBlock_accounts, hid]
  · rw [Bool.not_eq_true] at hid
    rw [hid, if_neg Bool.false_ne_true]
    obtain ⟨hr, hident, hver, hacc, hzkp, haccounts, haddr⟩ :=
      createIdentity_success env now txhC o f s hid hbal
    cases hci : createIdentity env now txhC o f s with
    | mk r s' =>
        rw [hci] at hr hident hver hacc hzkp haccounts haddr
        try dsimp only at hr hident hver hacc hzkp haccounts haddr
        cases r with
        | error e => exact absurd hr (by simp)
        | ok u =>
            try dsimp only
            have hbal' : 21000 ≤ s'.bc.balanceOf f := by
              rw [balanceOf_eq_of_accounts s.bc s'.bc haccounts]
              exact hbal
            rw [haddr, createTransaction_ok env now txh f s.contractAddress
              "updateVerification" _ s'.bc hbal']
            try dsimp only
            refine ⟨rfl, ?_, ?_, ?_, ?_, ?_, ?_, ?_⟩ <;>
              simp [emitDomainEvent_maps, emitDomainEvent_accounts, emitDomainEvent_addr,
                mineBlock_accounts, hident, hver, hacc, hzkp, haccounts, hid,
                alookup_ainsert_self, acontains]

theorem contractMaps_ext (m m' : ContractMaps)
    (h1 : m.identity_records = m'.identity_records)
    (h2 : m.verification_records = m'.verification_records)
    (h3 : m.access_grants = m'.access_grants)
    (h4 : m.zkp_verifications = m'.zkp_verifications) : m = m' := by
  cases m
  cases m'
  cases h1
  cases h2
  cases h3
  cases h4
  rfl

/-- C9 (amended): `updateVerification(owner, type, status, from)` on an owner
with no identity record creates the identity before storing the status, and
repeating the identical call is idempotent on the contract's state maps: the
second call leaves all four maps exactly as after the first, and in every
case `getVerificationStatus(owner, type)` afterwards returns the given
status.  (The ledger is not idempotent: each call still appends a new
transaction and mines a new block, as every mutating operation does.) -/
theorem C9_update_verification_idempotent (env : Env) (n1 n2 : Int)
    (hc1 h1 hc2 h2 o : String) (vt st : Int) (f : String) (s : SysState)
    (hbal : 21000 ≤ s.bc.balanceOf f) :
    (updateVerification env n1 hc1 h1 o vt st f s).1 = .ok () ∧
    acontains (updateVerification env n1 hc1 h1 o vt st f s).2.maps.identity_records o
      = true ∧
    getVerificationStatus (updateVerification env n1 hc1 h1 o vt st f s).2 o vt = st ∧
    (updateVerification env n2 hc2 h2 o vt st f
        (updateVerification env n1 hc1 h1 o vt st f s).2).1 = .ok () ∧
    (updateVerification env n2 hc2 h2 o vt st f
        (updateVerification env n1 hc1 h1 o vt st f s).2).2.maps
      = (updateVerification env n1 hc1 h1 o vt st f s).2.maps ∧
    getVerificationStatus (updateVerification env n2 hc2 h2 o vt st f
        (updateVerification env n1 hc1 h1 o vt st f s).2).2 o vt = st := by
  obtain ⟨ha1, ha2, ha3, ha4, ha5, ha6, ha7, ha8⟩ :=
    updateVerification_success env n1 hc1 h1 o vt st f s hbal
  have hbal1 : 21000 ≤ (updateVerification env n1 hc1 h1 o vt st f s).2.bc.balanceOf f := by
    rw [balanceOf_eq_of_accounts s.bc _ ha6]
    exact hbal
  obtain ⟨hb1, hb2, hb3, hb4, hb5, hb6, hb7, hb8⟩ :=
    updateVerification_success env n2 hc2 h2 o vt st f
      (updateVerification env n1 hc1 h1 o vt st f s).2 hbal1
  have hlook : alookup
      (updateVerification env n1 hc1 h1 o vt st f s).2.maps.verification_records o
      = some (ainsert ((alookup s.maps.verification_records o).getD []) (.vInt vt) st) := by
    rw [ha3]
    exact alookup_ainsert_self _ _ _
  refine ⟨ha1, ha2, ?_, hb1, ?_, ?_⟩
  · unfold getVerificationStatus
    rw [hlook]
    simp [alookup_ainsert_self]
  · apply contractMaps_ext
    · rw [hb8, if_pos ha2]
    · rw [hb3, hlook]
      simp only [Option.getD_some]
      rw [ainsert_lookup_eq _ _ _ (alookup_ainsert_self _ _ _)]
      exact ainsert_lookup_eq _ _ _ hlook
    · exact hb4
    · exact hb5
  · unfold getVerificationStatus
    rw [hb3, hlook]
    simp only [Option.getD_some]
    rw [ainsert_lookup_eq _ _ _ (alookup_ainsert_self _ _ _)]
    rw [alookup_ainsert_self]
    simp [alookup_ainsert_self]

/-- C9 counterexample: repeating the identical `updateVerification` call is
not a no-op on the full state — each call appends a transaction and mines a
block, so the chain after the second call is strictly longer than after the
first (the claim's "final state after the second call equals the state after
the first call" fails on the ledger part). -/
theorem C9_counterexample : c9s2.bc.chain.length ≠ c9s1.bc.chain.length := by
  decide

/-- C9 witness: the amended idempotence applied to a concrete funded owner
with no prior identity. -/
theorem C9_witness :
    getVerificationStatus c9s1 addr0 0 = 1 ∧ c9s2.maps = c9s1.maps :=
  ⟨(C9_update_verification_idempotent testEnv 0 0 "a" "b" "a" "b" addr0 0 1 addr0
      (initSys testEnv 0 "0xid") (by decide)).2.2.1,
   (C9_update_verification_idempotent testEnv 0 0 "a" "b" "a" "b" addr0 0 1 addr0
      (initSys testEnv 0 "0xid") (by decide)).2.2.2.2.1⟩
